import Mathlib

/-!
Verification of the ComfyUI_SceneSplitter nodes (`nodes.py`) against their
design description.  The Python source is shallowly embedded: the
`TensorVideoStream` adapter becomes a record with an explicit state
transformer for `read`/`seek`, the scene-start extraction of
`SceneStartFramesNode.get_scene_frames` becomes a pure list function, and
`SceneDetectSplitter.split_video` becomes a function of an abstract
filesystem/tool environment that also returns the trace of external
effects it performs.
-/

/-! ## The in-memory frame-source adapter (`TensorVideoStream`)

Frames are kept abstract (type parameter `F`): the adapter never inspects a
frame, it only indexes the batch and hands each selected frame through the
per-frame pixel conversion (`tensor -> uint8 BGR` in the source), modelled
as an arbitrary function `conv : F -> G`.  The frame rate is a Python float
in the source; no arithmetic is ever performed on it here, so it is carried
exactly as a rational.  The batch `images` is the frame dimension of the
backing 4-D tensor, hence an ordered fixed-length sequence. -/

/-- State of a `TensorVideoStream`: the caller-owned backing batch, the
frame rate, the internal next-read cursor `_pos`, and the externally
reported index `_frame_number`.  Both counters are `Int` because `seek`
stores `int(target)` unclamped, which may be negative. -/
structure TensorVideoStream (F : Type) where
  images : List F
  fps : ℚ
  pos : Int
  frame_number : Int
deriving DecidableEq, Repr

/-- Embedding of `TensorVideoStream.__init__`: it stores the batch, the
rate and zero-initialises both counters.  The source performs no
validation whatsoever (no emptiness or shape check), so construction is a
total function. -/
def TensorVideoStream.init (images : List F) (fps : ℚ) : TensorVideoStream F :=
  { images := images, fps := fps, pos := 0, frame_number := 0 }

/-- Python/torch indexing `images[pos]` along the batch dimension: a
non-negative index selects that position, a negative index `-m` selects
position `len - m` when in range, and anything else raises `IndexError`
(modelled as `none`). -/
def tensorGet (l : List F) (i : Int) : Option F :=
  if 0 ≤ i then l[i.toNat]?
  else if 0 ≤ i + l.length then l[(i + l.length).toNat]?
  else none

/-- Embedding of `TensorVideoStream.read`.  If the cursor has consumed all
frames (`_pos >= _total_frames`) it returns `False` (here `none`) leaving
the state untouched.  Otherwise it first publishes the cursor as the
externally visible `_frame_number`, then fetches and converts the frame at
the cursor, then advances the cursor, and returns the converted frame.  A
failing index (only possible for `pos < -len`, reachable via `seek`)
raises; that is the `Except.error` case, mirroring the uncaught Python
`IndexError`. -/
def TensorVideoStream.read (conv : F → G) (s : TensorVideoStream F) :
    Except String (Option G × TensorVideoStream F) :=
  if (s.images.length : Int) ≤ s.pos then .ok (none, s)
  else
    match tensorGet s.images s.pos with
    | none => .error "IndexError"
    | some f => .ok (some (conv f), { s with frame_number := s.pos, pos := s.pos + 1 })

/-- Embedding of `TensorVideoStream.seek` for an integral target (the
`int`/`float` branch of the source; the `FrameTimecode` branch resolves
the timecode to its frame count and then performs the same assignments).
Both the cursor and the reported index are set to the target, with no
bounds clamping. -/
def TensorVideoStream.seek (s : TensorVideoStream F) (target : Int) :
    TensorVideoStream F :=
  { s with pos := target, frame_number := target }

/-- Embedding of `TensorVideoStream.reset`. -/
def TensorVideoStream.reset (s : TensorVideoStream F) : TensorVideoStream F :=
  { s with pos := 0, frame_number := 0 }

/-- The adapter state reached after `k` successful reads from
`TensorVideoStream.init frames fps`: the cursor sits at `k` and the
reported index is the index of the most recently returned frame (`k - 1`,
except before any read where it is the initial `0`). -/
def afterReads (frames : List F) (fps : ℚ) (k : Nat) : TensorVideoStream F :=
  { images := frames, fps := fps, pos := (k : Int),
    frame_number := if k = 0 then 0 else (k : Int) - 1 }

/-! ## Scene-start index extraction (`SceneStartFramesNode.get_scene_frames`)

A detected scene is a pair of frame timecodes; only the start frame count
(`scene[0].get_frames()`, a natural number) matters here, so a boundary is
modelled as a pair of naturals `(start, stop)`. -/

/-- Embedding of the result-extraction block of `get_scene_frames`:
`start_frames = [0]` if the detector reported nothing, else the list of
boundary start frames; `0` is prepended when missing; and
`sorted(list(set(...)))` canonicalises to the ascending enumeration of the
distinct values, modelled as `insertionSort` of `dedup`. -/
def extractStartFrames (scene_list : List (Nat × Nat)) : List Nat :=
  let start_frames := if scene_list = [] then [0] else scene_list.map Prod.fst
  let start_frames := if 0 ∈ start_frames then start_frames else 0 :: start_frames
  List.insertionSort (· ≤ ·) start_frames.dedup

/-- Embedding of Python `sep.join(parts)`. -/
def strJoin (sep : String) : List String → String
  | [] => ""
  | [x] => x
  | x :: y :: xs => x ++ sep ++ strJoin sep (y :: xs)

/-- The comma-joined string form `",".join(map(str, start_frames))`
returned by `get_scene_frames`. -/
def startFramesStr (scene_list : List (Nat × Nat)) : String :=
  strJoin "," ((extractStartFrames scene_list).map Nat.repr)

/-- The `count` output `len(start_frames)` of `get_scene_frames`. -/
def startFramesCount (scene_list : List (Nat × Nat)) : Nat :=
  (extractStartFrames scene_list).length

/-- Claim-side decimal parser used to state the round-trip property: a
piece parses as the integer with the usual decimal reading exactly when it
is a non-empty string of digits. -/
def decParse (cs : List Char) : Option Nat :=
  if cs ≠ [] ∧ cs.all (fun c => c.isDigit) = true then
    some (cs.foldl (fun a c => 10 * a + (c.toNat - 48)) 0)
  else none

/-! ## Source selection of `get_scene_frames`

The node receives an optional in-memory batch and a (possibly empty) path
string; the batch, when present, wins and is wrapped in a
`TensorVideoStream` at the default rate 30.0, otherwise a non-empty
existing path is opened as a file stream, otherwise a `ValueError` is
raised. -/

/-- The frame source chosen by `get_scene_frames`: either the in-memory
adapter, or the external file decoder (kept opaque, identified by its
path). -/
inductive FrameSourceChoice (F : Type) where
  | buffer (stream : TensorVideoStream F)
  | file (path : String)
deriving DecidableEq, Repr

/-- Embedding of the input-priority block of `get_scene_frames`.
`pathExists` abstracts `os.path.exists`. -/
def selectSource (images : Option (List F)) (video_path : String)
    (pathExists : String → Bool) : Except String (FrameSourceChoice F) :=
  match images with
  | some imgs => .ok (.buffer (TensorVideoStream.init imgs 30))
  | none =>
    if video_path != "" && pathExists video_path then .ok (.file video_path)
    else .error "InvalidInput"

/-! ## The splitter node (`SceneDetectSplitter.split_video`)

The node touches the filesystem, an external detector and the external
ffmpeg-based splitting tool; these collaborators are abstracted into an
environment record, and the externally observable actions the node takes
are accumulated as an event trace, so that ordering claims ("fails before
any directory creation") are statable. -/

/-- Parts of Python path handling used by `split_video`. `pyBasename` is
`os.path.basename`: everything after the last separator. -/
def pyBasename (p : String) : String :=
  ⟨(p.data.reverse.takeWhile (fun c => c ≠ '/')).reverse⟩

/-- Embedding of `os.path.splitext`: split off the extension beginning at
the last dot of the final component, unless every character of that
component before the last dot is itself a dot (so purely dotted leading
names such as `.bashrc` have no extension). -/
def pySplitExt (p : String) : String × String :=
  let base := (pyBasename p).data
  let tailNoDot := base.reverse.takeWhile (fun c => c ≠ '.')
  if tailNoDot.length = base.length then (p, "")
  else
    let extLen := tailNoDot.length + 1
    let before := base.take (base.length - extLen)
    if before.all (fun c => c = '.') then (p, "")
    else (⟨p.data.take (p.data.length - extLen)⟩,
          ⟨p.data.drop (p.data.length - extLen)⟩)

/-- Embedding of posix `os.path.join(d, n)` for the two-argument uses in
the source. -/
def joinPath (d n : String) : String :=
  if n.data.head? = some '/' then n
  else if d = "" then n
  else if d.data.getLast? = some '/' then d ++ n
  else d ++ "/" ++ n

/-- Matching of a directory entry against the glob pattern
`f"{stem}-Scene-*{ext}"` used for output discovery: the name decomposes as
`stem ++ "-Scene-" ++ s ++ ext` for some (possibly empty) string `s`.
Faithful for stems and extensions free of glob metacharacters. -/
def globSceneMatch (stem ext name : String) : Bool :=
  let A := (stem ++ "-Scene-").data
  A.isPrefixOf name.data && ext.data.isSuffixOf (name.data.drop A.length)

/-- Claim-side naming convention `<stem>-Scene-<N><ext>`: like
`globSceneMatch` but the middle piece must be a (possibly zero-padded)
decimal rendering of a scene number, i.e. a non-empty digit string. -/
def numericSceneName (stem ext name : String) : Bool :=
  let A := (stem ++ "-Scene-").data
  let E := ext.data
  A.isPrefixOf name.data &&
    (let rest := name.data.drop A.length
     E.isSuffixOf rest &&
       (let mid := rest.take (rest.length - E.length)
        !mid.isEmpty && mid.all (fun c => c.isDigit)))

/-- Abstraction of the collaborators `split_video` consults: path
existence, tool availability, the detector verdict for the analysed video,
the directory contents seen by `glob` after the tool ran, and
`os.path.abspath` resolution. -/
structure SplitEnv where
  pathExists : String → Bool
  ffmpegAvailable : Bool
  sceneList : List (Nat × Nat)
  outputFiles : String → List String
  absPath : String → String

/-- External actions `split_video` can perform, in order. -/
inductive SplitEvent where
  | makeDirs (d : String)
  | openVideo (p : String)
  | runSplitTool (video : String) (scenes : List (Nat × Nat)) (outDir : String)
deriving DecidableEq, Repr

/-- Recogniser for the external segmentation-tool invocation event. -/
def SplitEvent.isSplitToolRun : SplitEvent → Bool
  | .runSplitTool _ _ _ => true
  | _ => false

/-- Failures of `split_video`: `FileNotFoundError` for a missing video,
`RuntimeError` for missing ffmpeg. -/
inductive SplitError where
  | videoNotFound (p : String)
  | ffmpegMissing
deriving DecidableEq, Repr

/-- Embedding of `SceneDetectSplitter.split_video`: the returned pair is
the trace of external actions together with either an error or the
`(file_paths_list, file_paths_str)` result.  Control flow follows the
source: existence check, tool check, conditional directory creation, video
open + detection, empty-scene short-circuit, one tool invocation, then
glob discovery sorted and made absolute. -/
def split_video (env : SplitEnv) (video_path output_dir : String) :
    List SplitEvent × Except SplitError (List String × String) :=
  if env.pathExists video_path = false then
    ([], .error (.videoNotFound video_path))
  else if env.ffmpegAvailable = false then
    ([], .error .ffmpegMissing)
  else
    let dirEvents :=
      if env.pathExists output_dir then [] else [SplitEvent.makeDirs output_dir]
    let events := dirEvents ++ [SplitEvent.openVideo video_path]
    if env.sceneList = [] then
      (events, .ok ([video_path], video_path))
    else
      let events :=
        events ++ [SplitEvent.runSplitTool video_path env.sceneList output_dir]
      let video_name := (pySplitExt (pyBasename video_path)).1
      let ext := (pySplitExt video_path).2
      let generated := List.insertionSort (fun a b : String => a ≤ b)
        (((env.outputFiles output_dir).filter
            (fun n => globSceneMatch video_name ext n)).map
          (fun n => joinPath output_dir n))
      let abs_generated := generated.map env.absPath
      (events, .ok (abs_generated, strJoin "\n" abs_generated))

/-! ## Helper lemmas about the extraction -/

theorem mem_extractStartFrames (B : List (Nat × Nat)) (x : Nat) :
    x ∈ extractStartFrames B ↔ x = 0 ∨ x ∈ B.map Prod.fst := by
  unfold extractStartFrames
  simp only [List.mem_insertionSort, List.mem_dedup]
  split_ifs with hB h0 h0
  · subst hB
    simp
  · exact absurd (by simp) h0
  · constructor
    · exact fun hx => Or.inr hx
    · rintro (rfl | hx)
      · exact h0
      · exact hx
  · simp only [List.mem_cons]

theorem sorted_extractStartFrames (B : List (Nat × Nat)) :
    (extractStartFrames B).Sorted (· < ·) := by
  have hs : (extractStartFrames B).Sorted (· ≤ ·) := by
    unfold extractStartFrames
    exact List.sorted_insertionSort _ _
  have hn : (extractStartFrames B).Nodup := by
    unfold extractStartFrames
    exact ((List.perm_insertionSort _ _).nodup_iff).mpr (List.nodup_dedup _)
  exact hs.lt_of_le hn

theorem zero_mem_extractStartFrames (B : List (Nat × Nat)) :
    0 ∈ extractStartFrames B :=
  (mem_extractStartFrames B 0).mpr (Or.inl rfl)

theorem extractStartFrames_nil : extractStartFrames [] = [0] := by decide

/-- C1: for every boundary list `B`, the scene-start extraction of
`get_scene_frames` yields a strictly ascending (hence duplicate-free) list
of indices that contains `0`; it is `[0]` when `B` is empty, and otherwise
its members are exactly the boundary start indices together with `0`. -/
theorem extractStartFrames_spec (B : List (Nat × Nat)) :
    (extractStartFrames B).Sorted (· < ·) ∧
    (extractStartFrames B).Nodup ∧
    0 ∈ extractStartFrames B ∧
    (∀ x, x ∈ extractStartFrames B ↔ x = 0 ∨ x ∈ B.map Prod.fst) ∧
    (B = [] → extractStartFrames B = [0]) :=
  ⟨sorted_extractStartFrames B, (sorted_extractStartFrames B).nodup,
    zero_mem_extractStartFrames B, mem_extractStartFrames B,
    fun h => h ▸ extractStartFrames_nil⟩

/-- Instantiation of `extractStartFrames_spec` on concrete boundary lists,
evaluating the extraction on the empty list and on detector output
`[0,50),[50,120)`. -/
theorem extractStartFrames_spec_witness :
    extractStartFrames [] = [0] ∧ 50 ∈ extractStartFrames [(0, 50), (50, 120)] :=
  ⟨(extractStartFrames_spec []).2.2.2.2 rfl,
    (extractStartFrames_spec [(0, 50), (50, 120)]).2.2.2.1 50 |>.mpr
      (Or.inr (by decide))⟩

/-! ## Decimal rendering facts for the round-trip property -/

theorem toDigitsCore_acc (n : Nat) : ∀ fuel : Nat, n < fuel → ∀ acc : List Char,
    Nat.toDigitsCore 10 fuel n acc = Nat.toDigits 10 n ++ acc := by
  induction n using Nat.strong_induction_on with
  | _ n ih =>
    intro fuel h acc
    match fuel, h with
    | f + 1, h =>
      by_cases h0 : n / 10 = 0
      · simp [Nat.toDigits, Nat.toDigitsCore, h0]
      · have hn : 0 < n := by
          rcases Nat.eq_zero_or_pos n with rfl | hp
          · simp at h0
          · exact hp
        have hlt : n / 10 < n := Nat.div_lt_self hn (by norm_num)
        rw [Nat.toDigits]
        simp only [Nat.toDigitsCore, h0, if_false]
        rw [ih (n / 10) hlt f (by omega) (Nat.digitChar (n % 10) :: acc),
          ih (n / 10) hlt n (by omega) [Nat.digitChar (n % 10)]]
        simp

theorem toDigits_lt_ten (n : Nat) (h : n < 10) :
    Nat.toDigits 10 n = [Nat.digitChar n] := by
  have h0 : n / 10 = 0 := Nat.div_eq_of_lt h
  have h1 : n % 10 = n := Nat.mod_eq_of_lt h
  simp [Nat.toDigits, Nat.toDigitsCore, h0, h1]

theorem toDigits_ge_ten (n : Nat) (h : 10 ≤ n) :
    Nat.toDigits 10 n = Nat.toDigits 10 (n / 10) ++ [Nat.digitChar (n % 10)] := by
  have h0 : n / 10 ≠ 0 := by
    intro hc
    have := (Nat.div_eq_zero_iff (by norm_num : 0 < 10)).mp hc
    omega
  conv_lhs => rw [Nat.toDigits]
  simp only [Nat.toDigitsCore, h0, if_false]
  have hn : 0 < n := by omega
  exact toDigitsCore_acc (n / 10) n (Nat.div_lt_self hn (by norm_num)) _

theorem digitChar_isDigit (m : Nat) (h : m < 10) :
    (Nat.digitChar m).isDigit = true := by
  interval_cases m <;> rfl

theorem digitChar_val (m : Nat) (h : m < 10) :
    (Nat.digitChar m).toNat - 48 = m := by
  interval_cases m <;> rfl

theorem toDigits_all_isDigit (n : Nat) :
    ∀ c ∈ Nat.toDigits 10 n, c.isDigit = true := by
  induction n using Nat.strong_induction_on with
  | _ n ih =>
    by_cases h : n < 10
    · rw [toDigits_lt_ten n h]
      intro c hc
      rw [List.mem_singleton.mp hc]
      exact digitChar_isDigit n h
    · rw [toDigits_ge_ten n (by omega)]
      intro c hc
      rcases List.mem_append.mp hc with h1 | h2
      · exact ih (n / 10) (Nat.div_lt_self (by omega) (by norm_num)) c h1
      · rw [List.mem_singleton.mp h2]
        exact digitChar_isDigit (n % 10) (Nat.mod_lt n (by norm_num))

theorem toDigits_ne_nil (n : Nat) : Nat.toDigits 10 n ≠ [] := by
  by_cases h : n < 10
  · rw [toDigits_lt_ten n h]
    simp
  · rw [toDigits_ge_ten n (by omega)]
    simp

theorem foldl_toDigits (n : Nat) : ∀ a : Nat,
    (Nat.toDigits 10 n).foldl (fun a c => 10 * a + (c.toNat - 48)) a
      = a * 10 ^ (Nat.toDigits 10 n).length + n := by
  induction n using Nat.strong_induction_on with
  | _ n ih =>
    intro a
    by_cases h : n < 10
    · rw [toDigits_lt_ten n h]
      simp only [List.foldl_cons, List.foldl_nil, List.length_singleton]
      rw [digitChar_val n h]
      ring
    · have hlt : n / 10 < n := Nat.div_lt_self (by omega) (by norm_num)
      rw [toDigits_ge_ten n (by omega), List.foldl_append,
        ih (n / 10) hlt a]
      simp only [List.foldl_cons, List.foldl_nil, List.length_append,
        List.length_singleton]
      rw [digitChar_val (n % 10) (Nat.mod_lt n (by norm_num))]
      have hdm : 10 * (n / 10) + n % 10 = n := Nat.div_add_mod n 10
      set L := (Nat.toDigits 10 (n / 10)).length with hL
      calc 10 * (a * 10 ^ L + n / 10) + n % 10
          = a * (10 ^ L * 10) + (10 * (n / 10) + n % 10) := by ring
        _ = a * 10 ^ (L + 1) + n := by rw [pow_succ, hdm]

theorem repr_data (n : Nat) : (Nat.repr n).data = Nat.toDigits 10 n := rfl

theorem decParse_repr (n : Nat) : decParse (Nat.repr n).data = some n := by
  rw [repr_data]
  unfold decParse
  rw [if_pos ⟨toDigits_ne_nil n, by
    rw [List.all_eq_true]
    intro c hc
    exact toDigits_all_isDigit n c hc⟩]
  rw [foldl_toDigits n 0]
  simp

theorem comma_not_mem_repr (n : Nat) : ',' ∉ (Nat.repr n).data := by
  rw [repr_data]
  intro h
  have := toDigits_all_isDigit n ',' h
  exact absurd this (by decide)

theorem strJoin_data (sep : String) (parts : List String) :
    (strJoin sep parts).data = List.intercalate sep.data (parts.map String.data) := by
  induction parts with
  | nil => rfl
  | cons x xs ih =>
    cases xs with
    | nil => simp [strJoin, List.intercalate, List.intersperse]
    | cons y ys =>
      simp only [strJoin, List.map_cons, List.intercalate, List.intersperse,
        String.data_append] at ih ⊢
      rw [ih]
      simp

theorem comma_data : ("," : String).data = [','] := rfl

/-- C9: splitting the comma-joined string output of `get_scene_frames` on
commas and parsing each piece as a decimal integer reproduces the returned
start-frame list exactly, and the returned count is its length. -/
theorem startFrames_roundtrip (B : List (Nat × Nat)) :
    ((startFramesStr B).data.splitOn ',').map decParse
      = (extractStartFrames B).map some ∧
    startFramesCount B = (extractStartFrames B).length := by
  refine ⟨?_, rfl⟩
  have h1 : (startFramesStr B).data
      = List.intercalate [','] (((extractStartFrames B).map Nat.repr).map String.data) := by
    rw [startFramesStr, strJoin_data, comma_data]
  rw [h1]
  rw [List.splitOn_intercalate _ ','
    (by
      intro l hl
      rw [List.mem_map] at hl
      obtain ⟨s, hs, rfl⟩ := hl
      rw [List.mem_map] at hs
      obtain ⟨m, _, rfl⟩ := hs
      exact comma_not_mem_repr m)
    (by
      have h0 : extractStartFrames B ≠ [] :=
        List.ne_nil_of_mem (zero_mem_extractStartFrames B)
      simp [h0])]
  rw [List.map_map, List.map_map]
  exact List.map_congr_left (fun m _ => decParse_repr m)

/-! ## Properties of the adapter -/

/-- C2 counterexample: the constructor performs no validation, so building
a `TensorVideoStream` over an empty frame batch succeeds (it is the plain
zero-initialised record), and the first `read` then reports end-of-stream
rather than raising any error. -/
theorem tensorStream_empty_constructs :
    TensorVideoStream.init ([] : List Nat) 30
      = { images := [], fps := 30, pos := 0, frame_number := 0 } ∧
    TensorVideoStream.read id (TensorVideoStream.init ([] : List Nat) 30)
      = .ok (none, TensorVideoStream.init ([] : List Nat) 30) :=
  ⟨rfl, rfl⟩

/-- C2 (amended): construction never fails; it merely records the batch
and zero-initialises the two counters, and over an empty batch every
subsequent `read` immediately reports end-of-stream (never an error). -/
theorem tensorStream_init_no_validation {F G : Type} (conv : F → G)
    (images : List F) (fps : ℚ) :
    TensorVideoStream.init images fps
      = { images := images, fps := fps, pos := 0, frame_number := 0 } ∧
    (images = [] →
      TensorVideoStream.read conv (TensorVideoStream.init images fps)
        = .ok (none, TensorVideoStream.init images fps)) := by
  refine ⟨rfl, ?_⟩
  rintro rfl
  rfl

/-- Instantiation of `tensorStream_init_no_validation` on the empty
batch. -/
theorem tensorStream_init_no_validation_witness :
    TensorVideoStream.read (fun n : Nat => n + 1)
        (TensorVideoStream.init ([] : List Nat) 30)
      = .ok (none, TensorVideoStream.init ([] : List Nat) 30) :=
  (tensorStream_init_no_validation (fun n : Nat => n + 1) [] 30).2 rfl

/-- C3: starting from the initial state, the i-th successful `read`
returns the (converted) frame at position `i` and leaves the externally
visible `frame_number` equal to `i`, for every `i < N`; after `N` reads
the next `read` reports end-of-stream.  Hence exactly `N` reads succeed,
each reporting its own zero-based index, and the cursor (`pos`) is only
ever one ahead of the reported index, never equal to it at hand-over. -/
theorem tensorStream_read_contract {F G : Type} (conv : F → G)
    (frames : List F) (fps : ℚ) :
    afterReads frames fps 0 = TensorVideoStream.init frames fps ∧
    (∀ i, ∀ h : i < frames.length,
      TensorVideoStream.read conv (afterReads frames fps i)
        = .ok (some (conv (frames.get ⟨i, h⟩)), afterReads frames fps (i + 1)) ∧
      (afterReads frames fps (i + 1)).frame_number = (i : Int)) ∧
    TensorVideoStream.read conv (afterReads frames fps frames.length)
      = .ok (none, afterReads frames fps frames.length) := by
  refine ⟨by simp [afterReads, TensorVideoStream.init], ?_, ?_⟩
  · intro i h
    constructor
    · simp only [TensorVideoStream.read, afterReads, tensorGet]
      rw [if_neg (by omega), if_pos (Int.natCast_nonneg i)]
      rw [Int.toNat_natCast, List.getElem?_eq_getElem h]
      simp [Nat.succ_ne_zero, List.get_eq_getElem]
    · simp only [afterReads, if_neg (Nat.succ_ne_zero i)]
      push_cast
      ring
  · simp only [TensorVideoStream.read, afterReads]
    rw [if_pos le_rfl]

/-- Instantiation of `tensorStream_read_contract` on a three-frame batch:
the read at state 1 returns the frame originally at position 1 and reports
index 1, and the read at state 3 reports end-of-stream. -/
theorem tensorStream_read_contract_witness :
    TensorVideoStream.read id (afterReads [4, 5, 6] (30 : ℚ) 1)
      = .ok (some 5, afterReads [4, 5, 6] (30 : ℚ) 2) ∧
    (afterReads [4, 5, 6] (30 : ℚ) 2).frame_number = 1 ∧
    TensorVideoStream.read id (afterReads [4, 5, 6] (30 : ℚ) 3)
      = .ok (none, afterReads [4, 5, 6] (30 : ℚ) 3) :=
  ⟨((tensorStream_read_contract id [4, 5, 6] 30).2.1 1 (by decide)).1,
    ((tensorStream_read_contract id [4, 5, 6] 30).2.1 1 (by decide)).2,
    (tensorStream_read_contract id [4, 5, 6] 30).2.2⟩

/-- C4: when the cursor has consumed all frames, `read` returns
end-of-stream and returns the state completely unchanged; and no `read`
outcome ever alters the backing batch (or the rate) — only the adapter's
own cursor/index fields can differ in the post-state. -/
theorem tensorStream_read_eos_pure {F G : Type} (conv : F → G)
    (s : TensorVideoStream F) :
    ((s.images.length : Int) ≤ s.pos →
      TensorVideoStream.read conv s = .ok (none, s)) ∧
    (∀ r t, TensorVideoStream.read conv s = .ok (r, t) →
      t.images = s.images ∧ t.fps = s.fps) := by
  constructor
  · intro h
    simp [TensorVideoStream.read, h]
  · intro r t hrt
    unfold TensorVideoStream.read at hrt
    by_cases h : (s.images.length : Int) ≤ s.pos
    · rw [if_pos h] at hrt
      simp only [Except.ok.injEq, Prod.mk.injEq] at hrt
      obtain ⟨-, rfl⟩ := hrt
      exact ⟨rfl, rfl⟩
    · rw [if_neg h] at hrt
      rcases hg : tensorGet s.images s.pos with - | f
      · rw [hg] at hrt
        exact absurd hrt (by simp)
      · rw [hg] at hrt
        simp only [Except.ok.injEq, Prod.mk.injEq] at hrt
        obtain ⟨-, rfl⟩ := hrt
        exact ⟨rfl, rfl⟩

/-- Instantiation of `tensorStream_read_eos_pure`: reading at an exhausted
cursor leaves the state untouched, and a successful read from the initial
state keeps the same backing batch. -/
theorem tensorStream_read_eos_pure_witness :
    TensorVideoStream.read id
        { images := [7, 8], fps := (30 : ℚ), pos := 5, frame_number := 4 }
      = .ok (none, { images := [7, 8], fps := (30 : ℚ), pos := 5, frame_number := 4 }) ∧
    (TensorVideoStream.read id (TensorVideoStream.init [7, 8] (30 : ℚ))
        = .ok (some 7, { images := [7, 8], fps := (30 : ℚ), pos := 1, frame_number := 0 }) →
      ({ images := [7, 8], fps := (30 : ℚ), pos := 1, frame_number := 0 }
          : TensorVideoStream Nat).images = [7, 8]) :=
  ⟨(tensorStream_read_eos_pure id
      { images := [7, 8], fps := (30 : ℚ), pos := 5, frame_number := 4 }).1 (by decide),
    fun hread => ((tensorStream_read_eos_pure id (TensorVideoStream.init [7, 8] (30 : ℚ))).2
      (some 7) _ hread).1⟩

/-- C5 counterexample: `seek(-1)` on a one-frame source is not beyond the
length, yet the following `read` neither reports end-of-stream nor returns
a frame at position `-1` (no such position exists): Python wrap-around
indexing makes it return the frame at position 0 while reporting current
index `-1`. -/
theorem tensorStream_seek_negative_wraps :
    TensorVideoStream.read id
        (TensorVideoStream.seek (TensorVideoStream.init [10] 30) (-1))
      = .ok (some 10, { images := [10], fps := 30, pos := 0, frame_number := -1 }) := by
  rfl

/-- C5 (amended): `seek(k)` stores `k` in both the cursor and the visible
index with no clamping, for every integer `k`; for every natural `k` the
subsequent `read` reports end-of-stream exactly when `k` is at or beyond
the length and otherwise returns the frame originally at position `k`
while reporting current index `k`; and for every negative target `k` with
`-N ≤ k < 0` the subsequent `read` follows Python wrap-around indexing:
it succeeds, returning the frame originally at position `N + k` while
still reporting current index `k`. -/
theorem tensorStream_seek_then_read {F G : Type} (conv : F → G)
    (frames : List F) (fps : ℚ) :
    (∀ k : Int,
      (TensorVideoStream.seek (TensorVideoStream.init frames fps) k).pos = k ∧
      (TensorVideoStream.seek (TensorVideoStream.init frames fps) k).frame_number = k) ∧
    (∀ k : Nat,
      (frames.length ≤ k →
        TensorVideoStream.read conv
            (TensorVideoStream.seek (TensorVideoStream.init frames fps) (k : Int))
          = .ok (none, TensorVideoStream.seek (TensorVideoStream.init frames fps) (k : Int))) ∧
      (∀ h : k < frames.length,
        TensorVideoStream.read conv
            (TensorVideoStream.seek (TensorVideoStream.init frames fps) (k : Int))
          = .ok (some (conv (frames.get ⟨k, h⟩)),
              { images := frames, fps := fps, pos := (k : Int) + 1,
                frame_number := (k : Int) }))) ∧
    (∀ k : Int, ∀ hk1 : -(frames.length : Int) ≤ k, ∀ hk2 : k < 0,
      TensorVideoStream.read conv
          (TensorVideoStream.seek (TensorVideoStream.init frames fps) k)
        = .ok (some (conv (frames.get ⟨(k + frames.length).toNat, by omega⟩)),
            { images := frames, fps := fps, pos := k + 1,
              frame_number := k })) := by
  refine ⟨fun k => ⟨rfl, rfl⟩, fun k => ⟨?_, ?_⟩, ?_⟩
  · intro hk
    simp only [TensorVideoStream.read, TensorVideoStream.seek, TensorVideoStream.init]
    rw [if_pos (by omega)]
  · intro h
    simp only [TensorVideoStream.read, TensorVideoStream.seek, TensorVideoStream.init,
      tensorGet]
    rw [if_neg (by omega), if_pos (Int.natCast_nonneg k)]
    rw [Int.toNat_natCast, List.getElem?_eq_getElem h]
    simp [List.get_eq_getElem]
  · intro k hk1 hk2
    simp only [TensorVideoStream.read, TensorVideoStream.seek, TensorVideoStream.init,
      tensorGet]
    rw [if_neg (by omega), if_neg (by omega), if_pos (by omega)]
    rw [List.getElem?_eq_getElem
      (show (k + (frames.length : Int)).toNat < frames.length by omega)]
    simp [List.get_eq_getElem]

/-- Instantiation of `tensorStream_seek_then_read`: on a two-frame batch,
`seek 1; read` returns the frame at position 1 reporting index 1,
`seek 5; read` reports end-of-stream, and `seek (-2); read` wraps around,
returning the frame at position 0 while reporting index `-2`. -/
theorem tensorStream_seek_then_read_witness :
    TensorVideoStream.read id
        (TensorVideoStream.seek (TensorVideoStream.init [7, 9] (30 : ℚ)) 1)
      = .ok (some 9, { images := [7, 9], fps := (30 : ℚ), pos := 2, frame_number := 1 }) ∧
    TensorVideoStream.read id
        (TensorVideoStream.seek (TensorVideoStream.init [7, 9] (30 : ℚ)) 5)
      = .ok (none, TensorVideoStream.seek (TensorVideoStream.init [7, 9] (30 : ℚ)) 5) ∧
    TensorVideoStream.read id
        (TensorVideoStream.seek (TensorVideoStream.init [7, 9] (30 : ℚ)) (-2))
      = .ok (some 7, { images := [7, 9], fps := (30 : ℚ), pos := -1, frame_number := -2 }) :=
  ⟨((tensorStream_seek_then_read id [7, 9] 30).2.1 1).2 (by decide),
    ((tensorStream_seek_then_read id [7, 9] 30).2.1 5).1 (by decide),
    (tensorStream_seek_then_read id [7, 9] 30).2.2 (-2) (by norm_num) (by norm_num)⟩

/-! ## Properties of the splitter node -/

/-- C6: when the detector reports no boundaries for an existing video (and
the tool is available), `split_video` short-circuits: its event trace
contains no invocation of the external segmentation tool, and the result
is the one-element list holding the original `video_path` unchanged. -/
theorem split_video_empty_boundaries (env : SplitEnv) (video_path output_dir : String)
    (hv : env.pathExists video_path = true)
    (hf : env.ffmpegAvailable = true)
    (hs : env.sceneList = []) :
    (split_video env video_path output_dir).2 = .ok ([video_path], video_path) ∧
    ∀ ev ∈ (split_video env video_path output_dir).1, ev.isSplitToolRun = false := by
  unfold split_video
  rw [if_neg (by simp [hv]), if_neg (by simp [hf]), if_pos hs]
  refine ⟨rfl, ?_⟩
  intro ev hev
  rcases List.mem_append.mp hev with h1 | h2
  · split at h1
    · exact absurd h1 (List.not_mem_nil ev)
    · rw [List.mem_singleton.mp h1]
      rfl
  · rw [List.mem_singleton.mp h2]
    rfl

/-- Instantiation of `split_video_empty_boundaries` on a concrete
environment with no detected boundaries. -/
theorem split_video_empty_boundaries_witness :
    (split_video
        { pathExists := fun p => p = "input.mp4", ffmpegAvailable := true,
          sceneList := [], outputFiles := fun _ => [], absPath := fun s => s }
        "input.mp4" "out").2
      = .ok (["input.mp4"], "input.mp4") :=
  (split_video_empty_boundaries
    { pathExists := fun p => p = "input.mp4", ffmpegAvailable := true,
      sceneList := [], outputFiles := fun _ => [], absPath := fun s => s }
    "input.mp4" "out" (by simp) rfl rfl).1

/-- C7: a missing `video_path` makes `split_video` fail with the not-found
error, and a missing external tool makes it fail with the tool error; in
both cases the event trace is empty, so the failure happens before any
directory creation, any video open, and any tool invocation. -/
theorem split_video_precondition_failures (env : SplitEnv)
    (video_path output_dir : String) :
    (env.pathExists video_path = false →
      split_video env video_path output_dir
        = ([], .error (.videoNotFound video_path))) ∧
    (env.pathExists video_path = true → env.ffmpegAvailable = false →
      split_video env video_path output_dir = ([], .error .ffmpegMissing)) := by
  constructor
  · intro h
    simp [split_video, h]
  · intro h1 h2
    simp [split_video, h1, h2]

/-- Instantiation of `split_video_precondition_failures` on concrete
environments: a missing video, and a missing tool. -/
theorem split_video_precondition_failures_witness :
    split_video
        { pathExists := fun _ => false, ffmpegAvailable := true,
          sceneList := [], outputFiles := fun _ => [], absPath := fun s => s }
        "gone.mp4" "out"
      = ([], .error (.videoNotFound "gone.mp4")) ∧
    split_video
        { pathExists := fun _ => true, ffmpegAvailable := false,
          sceneList := [], outputFiles := fun _ => [], absPath := fun s => s }
        "input.mp4" "out"
      = ([], .error .ffmpegMissing) :=
  ⟨(split_video_precondition_failures
      { pathExists := fun _ => false, ffmpegAvailable := true,
        sceneList := [], outputFiles := fun _ => [], absPath := fun s => s }
      "gone.mp4" "out").1 rfl,
    (split_video_precondition_failures
      { pathExists := fun _ => true, ffmpegAvailable := false,
        sceneList := [], outputFiles := fun _ => [], absPath := fun s => s }
      "input.mp4" "out").2 rfl rfl⟩

/-- C8 counterexample: discovery uses the glob pattern
`<stem>-Scene-*<ext>`, whose wildcard accepts any infix; a directory entry
`input-Scene-x.mp4` is returned by the node although it does not match the
numeric naming convention `<stem>-Scene-<N><ext>` the claim describes. -/
theorem split_video_glob_not_numeric :
    (split_video
        { pathExists := fun _ => true, ffmpegAvailable := true,
          sceneList := [(0, 5)],
          outputFiles := fun _ => ["input-Scene-x.mp4"],
          absPath := fun s => "/cwd/" ++ s }
        "input.mp4" "out").2
      = .ok (["/cwd/out/input-Scene-x.mp4"], "/cwd/out/input-Scene-x.mp4") ∧
    numericSceneName "input" ".mp4" "input-Scene-x.mp4" = false :=
  ⟨rfl, rfl⟩

/-- C8 (amended): after the tool ran, `split_video` returns exactly the
files of `output_dir` matching the glob pattern `<stem>-Scene-*<ext>`
(any infix in place of the scene number, which for tool-produced files is
the numeric `<N>`), sorted lexicographically and then converted to
absolute paths; zero matches give the empty result without error. -/
theorem split_video_discovery (env : SplitEnv) (video_path output_dir : String)
    (hv : env.pathExists video_path = true)
    (hf : env.ffmpegAvailable = true)
    (hs : env.sceneList ≠ []) :
    ∃ g : List String,
      g.Perm (((env.outputFiles output_dir).filter
          (fun n => globSceneMatch (pySplitExt (pyBasename video_path)).1
              (pySplitExt video_path).2 n)).map (joinPath output_dir)) ∧
      g.Sorted (fun a b : String => a ≤ b) ∧
      (split_video env video_path output_dir).2
        = .ok (g.map env.absPath, strJoin "\n" (g.map env.absPath)) ∧
      ((env.outputFiles output_dir).filter
          (fun n => globSceneMatch (pySplitExt (pyBasename video_path)).1
              (pySplitExt video_path).2 n) = [] →
        (split_video env video_path output_dir).2 = .ok ([], "")) := by
  refine ⟨List.insertionSort (fun a b : String => a ≤ b)
      (((env.outputFiles output_dir).filter
          (fun n => globSceneMatch (pySplitExt (pyBasename video_path)).1
              (pySplitExt video_path).2 n)).map (joinPath output_dir)),
    List.perm_insertionSort _ _, List.sorted_insertionSort _ _, ?_, ?_⟩
  · unfold split_video
    rw [if_neg (by simp [hv]), if_neg (by simp [hf]), if_neg hs]
  · intro h0
    unfold split_video
    rw [if_neg (by simp [hv]), if_neg (by simp [hf]), if_neg hs]
    simp only [h0]
    rfl

/-- Instantiation of `split_video_discovery` on a concrete environment
holding two matching files and one unrelated file. -/
theorem split_video_discovery_witness :
    ∃ g : List String,
      g.Perm ((List.filter
          (fun n => globSceneMatch (pySplitExt (pyBasename "input.mp4")).1
              (pySplitExt "input.mp4").2 n)
          (["input-Scene-002.mp4", "other.mp4", "input-Scene-001.mp4"])).map
            (joinPath "out")) ∧
      g.Sorted (fun a b : String => a ≤ b) ∧
      (split_video { pathExists := fun _ => true, ffmpegAvailable := true, sceneList := [(0, 5)], outputFiles := fun _ => ["input-Scene-002.mp4", "other.mp4", "input-Scene-001.mp4"], absPath := fun s => "/cwd/" ++ s } "input.mp4" "out").2
        = .ok (g.map (fun s => "/cwd/" ++ s), strJoin "\n" (g.map (fun s => "/cwd/" ++ s))) ∧
      (List.filter
          (fun n => globSceneMatch (pySplitExt (pyBasename "input.mp4")).1
              (pySplitExt "input.mp4").2 n)
          (["input-Scene-002.mp4", "other.mp4", "input-Scene-001.mp4"]) = [] →
        (split_video { pathExists := fun _ => true, ffmpegAvailable := true, sceneList := [(0, 5)], outputFiles := fun _ => ["input-Scene-002.mp4", "other.mp4", "input-Scene-001.mp4"], absPath := fun s => "/cwd/" ++ s } "input.mp4" "out").2 = .ok ([], "")) :=
  split_video_discovery { pathExists := fun _ => true, ffmpegAvailable := true, sceneList := [(0, 5)], outputFiles := fun _ => ["input-Scene-002.mp4", "other.mp4", "input-Scene-001.mp4"], absPath := fun s => "/cwd/" ++ s } "input.mp4" "out" rfl rfl (by simp)

/-! ## Source-selection priority of `get_scene_frames` -/

/-- C10: a present in-memory batch always wins — the chosen source is a
`TensorVideoStream` over the batch at the default frame rate 30, and the
file path is never opened; and an error is raised exactly when the batch
is absent and the path is empty or does not exist. -/
theorem selectSource_priority {F : Type} (pathExists : String → Bool) :
    (∀ (imgs : List F) (video_path : String),
      selectSource (some imgs) video_path pathExists
        = .ok (.buffer (TensorVideoStream.init imgs 30))) ∧
    (∀ (images : Option (List F)) (video_path : String),
      (∃ e, selectSource images video_path pathExists = .error e)
        ↔ images = none ∧ (video_path = "" ∨ pathExists video_path = false)) := by
  refine ⟨fun imgs video_path => rfl, fun images video_path => ?_⟩
  cases images with
  | some imgs =>
    simp only [selectSource]
    constructor
    · rintro ⟨e, he⟩
      exact absurd he (by simp)
    · rintro ⟨h, -⟩
      exact absurd h (by simp)
  | none =>
    simp only [selectSource]
    by_cases hb : (video_path != "" && pathExists video_path) = true
    · rw [if_pos hb]
      simp only [bne_iff_ne, Bool.and_eq_true, ne_eq] at hb
      constructor
      · rintro ⟨e, he⟩
        exact absurd he (by simp)
      · rintro ⟨-, (h | h)⟩
        · exact absurd h hb.1
        · rw [hb.2] at h
          exact absurd h (by simp)
    · rw [if_neg hb]
      simp only [Bool.and_eq_true, bne_iff_ne, ne_eq, not_and_or, not_not,
        Bool.not_eq_true] at hb
      exact ⟨fun _ => ⟨by trivial, hb⟩, fun _ => ⟨"InvalidInput", rfl⟩⟩

/-- Instantiation of `selectSource_priority`: with both a batch and a
usable path supplied the batch is chosen, and with no batch and an empty
path an error is raised. -/
theorem selectSource_priority_witness :
    selectSource (some [3]) "video.mp4" (fun _ => true)
      = .ok (.buffer (TensorVideoStream.init [3] 30)) ∧
    ∃ e, selectSource (none : Option (List Nat)) "" (fun _ => true) = .error e :=
  ⟨(selectSource_priority (fun _ => true)).1 [3] "video.mp4",
    ((selectSource_priority (fun _ => true)).2 none "").mpr ⟨rfl, Or.inl rfl⟩⟩
